import Mathlib

/-
  Verification of the in-memory key-value server (`redis-server/server.go`):
  a shallow embedding of the expiring key-value store, the wire-protocol
  frame decoder, the command dispatcher, and the snapshot (RDB) loader,
  together with theorems settling the specified properties.

  Wall-clock instants are modelled as unbounded integers counting
  nanoseconds (`GoTime`) — Go's `time.Time` is not limited to an int64 of
  nanoseconds, while `time.Duration` is, so duration arithmetic wraps or
  saturates exactly where the source's does. Go's `time.Now()` is an
  explicit `now` parameter, sampled once per check exactly where the
  source samples it.
-/

namespace GoRedis

/-- A wall-clock instant in nanoseconds since the epoch (Go `time.Time`:
unbounded — `time.Time` can represent instants far outside the int64
nanosecond range). -/
abbrev GoTime := Int

/-- Reduction of an integer to Go's `int64`, wrapping exactly as two's
complement overflow does (Go signed overflow wraps); used for
`time.Duration` multiplication. -/
def wrap64 (z : Int) : Int := (z + 2 ^ 63) % 2 ^ 64 - 2 ^ 63

/-- The largest Go `time.Duration` (int64 nanoseconds). -/
def maxDuration : Int := 2 ^ 63 - 1

/-- The smallest Go `time.Duration`. -/
def minDuration : Int := -(2 ^ 63)

/-- `time.Time.Sub` (hence `time.Until`): the exact instant difference,
saturated to the `time.Duration` range on overflow. -/
def satSub (a b : Int) : Int := max (min (a - b) maxDuration) minDuration

/-- Go struct `StoreItem { value string; hasExpiry bool; expiresAt time.Time }`.
`expiresAt` is meaningful only when `hasExpiry` is set; the Go zero value of
`time.Time` is modelled as `0`. -/
structure StoreItem where
  value : String
  hasExpiry : Bool
  expiresAt : GoTime
deriving Repr, DecidableEq

/-- The store's map `map[string]StoreItem`, modelled as an association list
whose first binding for a key is current (Go map semantics: unique keys). -/
abbrev Store := List (String × StoreItem)

/-- `Store.Set` from the source: unconditionally overwrites the entry for
`key`; `hasExpiry` is `px > 0`, and when `px > 0` the expiry is
`time.Now().Add(time.Duration(px) * time.Millisecond)` — the product
`px * 10^6` nanoseconds computed in int64, wrapping on overflow. -/
def Store.set (s : Store) (key value : String) (px : Int) (now : GoTime) : Store :=
  let item : StoreItem :=
    { value := value
      hasExpiry := decide (px > 0)
      expiresAt := if px > 0 then now + wrap64 (px * 1000000) else 0 }
  (key, item) :: s.filter (fun p => p.1 != key)

/-- The expiry test both `Store.Get` and `getAllKeys` perform:
`item.hasExpiry && time.Now().After(item.expiresAt)` — strictly after. -/
def expired (item : StoreItem) (now : GoTime) : Bool :=
  item.hasExpiry && decide (item.expiresAt < now)

/-- `Store.Get` from the source: absent key reports absence; an entry whose
expiry is strictly before `now` reports absence (and schedules a detached
delete, which does not alter the value returned here); otherwise the value. -/
def Store.get (s : Store) (key : String) (now : GoTime) : Option String :=
  match s.lookup key with
  | none => none
  | some item => if expired item now then none else some item.value

/-- `getAllKeys` from the source: every key whose entry is not expired at the
single sampled `now` (expired ones are skipped and scheduled for removal). -/
def getAllKeys (s : Store) (now : GoTime) : List String :=
  (s.filter (fun p => !(expired p.2 now))).map (fun p => p.1)

/-- Go struct `Config { dir, dbfilename string }`. -/
structure Config where
  dir : String
  dbfilename : String
deriving Repr, DecidableEq

/-- One wire-protocol reply frame, by shape (source builds these with
`conn.Write` of the corresponding encodings). -/
inductive Reply where
  | simple (s : String)
  | bulk (s : String)
  | nullBulk
  | arrayOfBulks (xs : List String)
  | err (msg : String)
deriving Repr, DecidableEq

/-- RESP encoding of a reply, matching the `fmt.Sprintf` patterns of the
source (`+…\r\n`, `$len\r\n…\r\n`, `$-1\r\n`, `*n\r\n` + bulks, `-…\r\n`). -/
def encodeReply : Reply → String
  | .simple s => "+" ++ s ++ "\r\n"
  | .bulk s => "$" ++ toString s.length ++ "\r\n" ++ s ++ "\r\n"
  | .nullBulk => "$-1\r\n"
  | .arrayOfBulks xs =>
      "*" ++ toString xs.length ++ "\r\n"
        ++ String.join (xs.map (fun x => "$" ++ toString x.length ++ "\r\n" ++ x ++ "\r\n"))
  | .err m => "-" ++ m ++ "\r\n"

/-- Digit-string parsing used by `strconv.Atoi` / `strconv.ParseInt` after the
optional sign: at least one digit and nothing but digits. -/
def parseDigitsAux : List Char → Nat → Option Nat
  | [], acc => some acc
  | c :: cs, acc =>
      if c.isDigit then parseDigitsAux cs (acc * 10 + (c.toNat - 48)) else none

/-- All-digit parse; the empty string is a parse error. -/
def parseDigits : List Char → Option Nat
  | [] => none
  | cs => parseDigitsAux cs 0

def int64Min : Int := -(2 ^ 63)

def int64Max : Int := 2 ^ 63 - 1

/-- `strconv.Atoi` / `strconv.ParseInt(s, 10, 64)`: optional sign, decimal
digits, 64-bit signed range; any violation is an error (`none`). -/
def goAtoi (l : List Char) : Option Int :=
  let signed : Option Int :=
    if l.head? = some '-' then (parseDigits (l.drop 1)).map (fun n => -(n : Int))
    else if l.head? = some '+' then (parseDigits (l.drop 1)).map (fun n => (n : Int))
    else (parseDigits l).map (fun n => (n : Int))
  match signed with
  | none => none
  | some v => if v < int64Min ∨ int64Max < v then none else some v

/-- `strconv.ParseInt(s, 10, 64)` on a `String` (used for the `PX` argument). -/
def goParseInt (s : String) : Option Int := goAtoi s.data

/-- ASCII uppercase of one character (`strings.ToUpper`, restricted to the
ASCII range — every string the dispatcher compares against is ASCII). -/
def upChar (c : Char) : Char :=
  if 'a' ≤ c ∧ c ≤ 'z' then Char.ofNat (c.toNat - 32) else c

/-- `strings.ToUpper` over the ASCII range. -/
def goUpper (s : String) : String := String.mk (s.data.map upChar)

/-- ASCII lowercase of one character (`strings.ToLower`, ASCII range). -/
def lowChar (c : Char) : Char :=
  if 'A' ≤ c ∧ c ≤ 'Z' then Char.ofNat (c.toNat + 32) else c

/-- `strings.ToLower` over the ASCII range. -/
def goLower (s : String) : String := String.mk (s.data.map lowChar)

/-- Lookup performed by `handleConfigGet`: `dir` and `dbfilename` are
recognized (case-insensitively), anything else answers the empty string. -/
def configLookup (cfg : Config) (param : String) : String :=
  if goLower param = "dir" then cfg.dir
  else if goLower param = "dbfilename" then cfg.dbfilename
  else ""

/-- The command dispatcher: the body of `handleRequest` after a frame has been
decoded into `elements`. Returns the store after the command and the list of
reply frames written for this frame. The source guards the whole dispatch
with `if len(elements) > 0`, so an empty argument list writes nothing. -/
def handleElements (s : Store) (cfg : Config) (elements : List String) (now : GoTime) :
    Store × List Reply :=
  match elements with
  | [] => (s, [])
  | cmd :: args =>
    let command := goUpper cmd
    if command = "PING" then (s, [.simple "PONG"])
    else if command = "ECHO" then
      match args with
      | e1 :: _ => (s, [.bulk e1])
      | [] => (s, [.err "ERR wrong number of arguments for 'echo' command"])
    else if command = "SET" then
      match args with
      | key :: value :: rest =>
        match rest with
        | a3 :: rest2 =>
          if goUpper a3 = "PX" then
            match rest2 with
            | a4 :: _ =>
              match goParseInt a4 with
              | some px => (Store.set s key value px now, [.simple "OK"])
              | none => (s, [.err "ERR invalid expire time in 'set' command"])
            | [] => (s, [.err "ERR syntax error"])
          else (Store.set s key value 0 now, [.simple "OK"])
        | [] => (Store.set s key value 0 now, [.simple "OK"])
      | _ => (s, [.err "ERR wrong number of arguments for 'set' command"])
    else if command = "GET" then
      match args with
      | [key] =>
        match Store.get s key now with
        | some v => (s, [.bulk v])
        | none => (s, [.nullBulk])
      | _ => (s, [.err "ERR wrong number of arguments for 'get' command"])
    else if command = "CONFIG" then
      match args with
      | sub :: param :: _ =>
        if goUpper sub = "GET" then (s, [.arrayOfBulks [param, configLookup cfg param]])
        else (s, [.err "ERR Wrong number of arguments"])
      | _ => (s, [.err "ERR Wrong number of arguments"])
    else if command = "KEYS" then
      match args with
      | [pat] =>
        if pat = "*" then (s, [.arrayOfBulks (getAllKeys s now)])
        else (s, [.err "ERR unsupported pattern"])
      | _ => (s, [.err "ERR wrong number of arguments for 'keys' command"])
    else (s, [.err "ERR unknown command"])

/-- `bufio.Reader.ReadString` up to and including the byte after the first
newline: the line (newline included) and the remaining stream, or `none` when
the stream ends before a newline (the source `return`s on that error, even
with partial data in hand). -/
def readLine : List Char → Option (List Char × List Char)
  | [] => none
  | c :: cs =>
    if c = '\n' then some ([c], cs)
    else
      match readLine cs with
      | some (l, r) => some (c :: l, r)
      | none => none

/-- `strings.TrimSuffix(s, "\r\n")`: strip one trailing CRLF if present. -/
def trimCRLF (l : List Char) : List Char :=
  match l.reverse with
  | '\n' :: '\r' :: rest => rest.reverse
  | _ => l

/-- Outcome of decoding one frame from a connection's byte stream: an
argument list plus the unconsumed stream, a fail-fast return that closes the
connection, or a Go runtime panic. -/
inductive DecodeResult where
  | ok (elements : List String) (rest : List Char)
  | closed
  | panicked
deriving Repr, DecidableEq

/-- The element loop of the frame decoder: for each of the `arrayLen`
elements, read a `$<L>` header line, then `make([]byte, L+2)` (a Go panic
when `L+2 < 0`), `io.ReadFull` of `L+2` bytes (short read closes the
connection), and `bulkData[:L]` (a Go panic when `L < 0`). -/
def decodeElements : Nat → List Char → List String → DecodeResult
  | 0, rest, acc => .ok acc.reverse rest
  | n + 1, input, acc =>
    match readLine input with
    | none => .closed
    | some (line, rest) =>
      if line.head? ≠ some '$' then .closed
      else
        match goAtoi (trimCRLF (line.drop 1)) with
        | none => .closed
        | some len =>
          if len + 2 < 0 then .panicked
          else if rest.length < (len + 2).toNat then .closed
          else if len < 0 then .panicked
          else
            decodeElements n (rest.drop (len + 2).toNat)
              (String.mk (rest.take len.toNat) :: acc)

/-- Decoding one frame: a `*<N>` header line (missing `*` or a bad integer
closes the connection; `make([]string, 0, N)` is a Go panic when `N < 0`),
then `N` elements. -/
def decodeFrame (input : List Char) : DecodeResult :=
  match readLine input with
  | none => .closed
  | some (line, rest) =>
    if line.head? ≠ some '*' then .closed
    else
      match goAtoi (trimCRLF (line.drop 1)) with
      | none => .closed
      | some n =>
        if n < 0 then .panicked
        else decodeElements n.toNat rest []

/-- One pass of the `handleRequest` connection loop: either the connection is
closed (fail-fast decode return), the Go runtime panics, or one frame is
dispatched, yielding the new store, the replies written, and the rest of the
stream. -/
inductive StepResult where
  | reply (s : Store) (rs : List Reply) (rest : List Char)
  | close
  | panicked
deriving Repr, DecidableEq

/-- Decode one frame and dispatch it (one iteration of `handleRequest`). -/
def serverStep (s : Store) (cfg : Config) (now : GoTime) (input : List Char) : StepResult :=
  match decodeFrame input with
  | .closed => .close
  | .panicked => .panicked
  | .ok elements rest =>
    .reply (handleElements s cfg elements now).1 (handleElements s cfg elements now).2 rest

/-! RDB snapshot loader (`rdb` reader file): opcodes, cursor-based file
reads, `Reader.Read` as an opcode-driven loop. The file is a byte list; a
missing file is `Option.none`. Reads advance a cursor; `Seek` (used by
`skipString`) can move it anywhere non-negative, so loops are run on a fuel
budget of one unit per loop iteration (`fuelOut` marks a run that would not
terminate within the budget, possible only for backward-seeking inputs). -/

def MetadataStart : Nat := 0xFA

def DatabaseStart : Nat := 0xFE

def ExpireGoTime : Nat := 0xFC

def ExpireTime : Nat := 0xFD

def EOFbyte : Nat := 0xFF

def ResizeDB : Nat := 0xFB

def TypeString : Nat := 0

/-- Go struct `KeyValue { Key, Value string; HasExpiry bool; ExpiresAt time.Time }`;
byte strings are kept as byte lists, `ExpiresAt` an instant in nanoseconds
(`time.Unix(sec, 0)` is `sec * 10^9`, `time.UnixMilli(ms)` is `ms * 10^6`
after the `uint64` → `int64` cast). -/
structure KeyValue where
  Key : List Nat
  Value : List Nat
  HasExpiry : Bool
  ExpiresAt : GoTime
deriving Repr, DecidableEq

/-- An open snapshot file: its bytes and the current read position. -/
structure RFile where
  bytes : List Nat
  pos : Nat
deriving Repr, DecidableEq

/-- `file.Read` into a 1-byte buffer: one byte or end-of-file. -/
def RFile.readByte (f : RFile) : Option (Nat × RFile) :=
  match (f.bytes.drop f.pos).head? with
  | none => none
  | some b => some (b, ⟨f.bytes, f.pos + 1⟩)

/-- `io.ReadFull` of `n` bytes: `none` when fewer than `n` bytes remain
(the source treats any such error as fatal to the load). -/
def RFile.readBytes (f : RFile) (n : Nat) : Option (List Nat × RFile) :=
  let avail := f.bytes.drop f.pos
  if avail.length < n then none
  else some (avail.take n, ⟨f.bytes, f.pos + n⟩)

/-- Little-endian value of a byte list. -/
def leNat : List Nat → Nat
  | [] => 0
  | b :: bs => b % 256 + 256 * leNat bs

/-- `readLength`: a fixed 4-byte little-endian signed `int32`. -/
def readLength (f : RFile) : Option (Int × RFile) :=
  match f.readBytes 4 with
  | none => none
  | some (bs, f1) =>
    let v := leNat bs
    some (if v < 2 ^ 31 then (v : Int) else (v : Int) - 2 ^ 32, f1)

/-- Terminal outcomes of `Reader.Read`: the record list, a parse error, a Go
runtime panic (negative `make` size in `readString`), or fuel exhaustion. -/
inductive RdbOut where
  | ok (pairs : List KeyValue)
  | err (msg : String)
  | panicked
  | fuelOut
deriving Repr, DecidableEq

/-- `readString`: a length then that many raw bytes. A negative length makes
`make([]byte, length)` panic; a short read is a fatal parse error. -/
def readStringR (f : RFile) : Except RdbOut (List Nat × RFile) :=
  match readLength f with
  | none => .error (.err "failed to read length")
  | some (len, f1) =>
    if len < 0 then .error .panicked
    else
      match f1.readBytes len.toNat with
      | none => .error (.err "failed to read string data")
      | some (bs, f2) => .ok (bs, f2)

/-- `skipString`: read a length, then `Seek` that far from the current
position; a resulting negative offset is an OS error, any other offset (even
past end-of-file) succeeds. -/
def skipStringR (f : RFile) : Except RdbOut RFile :=
  match readLength f with
  | none => .error (.err "failed to read length")
  | some (len, f1) =>
    let newPos : Int := (f1.pos : Int) + len
    if newPos < 0 then .error (.err "seek to negative position")
    else .ok ⟨f1.bytes, newPos.toNat⟩

/-- Result of the per-database record loop: hand control back to the outer
opcode loop (the terminating opcode byte has been consumed and is dropped),
or halt the whole load with a final outcome. -/
inductive Loop where
  | cont (f : RFile) (pairs : List KeyValue)
  | halt (r : RdbOut)
deriving Repr, DecidableEq

/-- The per-database record loop (`for opcode[0] != DatabaseStart && opcode[0] != EOF`):
read an optional expiry opcode (4-byte seconds or 8-byte milliseconds,
little-endian, converted to a nanosecond instant; the `uint64` is cast to
`int64`), require the string type
byte, read a key and a value, append the pair, then read the next opcode
byte and repeat. `op` is the opcode byte already in hand at loop entry. -/
def readRecords : Nat → Nat → RFile → List KeyValue → Loop
  | 0, _, _, _ => .halt .fuelOut
  | fuel + 1, op, f, pairs =>
    if op = DatabaseStart ∨ op = EOFbyte then .cont f pairs
    else
      let exPhase : Except RdbOut (Bool × GoTime × Nat × RFile) :=
        if op = ExpireTime then
          match f.readBytes 4 with
          | none => .error (.err "failed to read expiry seconds")
          | some (bs, f1) =>
            match f1.readByte with
            | none => .error (.err "EOF")
            | some (op2, f2) => .ok (true, (leNat bs : Int) * 1000000000, op2, f2)
        else if op = ExpireGoTime then
          match f.readBytes 8 with
          | none => .error (.err "failed to read expiry millis")
          | some (bs, f1) =>
            let v := leNat bs
            let ms : Int := if v < 2 ^ 63 then (v : Int) else (v : Int) - 2 ^ 64
            match f1.readByte with
            | none => .error (.err "EOF")
            | some (op2, f2) => .ok (true, ms * 1000000, op2, f2)
        else .ok (false, 0, op, f)
      match exPhase with
      | .error e => .halt e
      | .ok (hasE, expAt, op2, f2) =>
        if op2 ≠ TypeString then .halt (.err s!"unsupported value type: {op2}")
        else
          match readStringR f2 with
          | .error e => .halt e
          | .ok (key, f3) =>
            match readStringR f3 with
            | .error e => .halt e
            | .ok (value, f4) =>
              match f4.readByte with
              | none => .halt (.err "failed to read next opcode")
              | some (op3, f5) =>
                readRecords fuel op3 f5 (pairs ++ [⟨key, value, hasE, expAt⟩])

/-- The outer opcode loop of `Reader.Read`: end-of-file or the end-marker
opcode finish with the pairs collected so far; metadata is skipped; a
database selector reads the index, an optional resize hint, and then runs
the record loop; any other opcode is fatal. -/
def readOuter : Nat → RFile → List KeyValue → RdbOut
  | 0, _, _ => .fuelOut
  | fuel + 1, f, pairs =>
    match f.readByte with
    | none => .ok pairs
    | some (op, f1) =>
      if op = MetadataStart then
        match skipStringR f1 with
        | .error e => e
        | .ok f2 =>
          match skipStringR f2 with
          | .error e => e
          | .ok f3 => readOuter fuel f3 pairs
      else if op = DatabaseStart then
        match readLength f1 with
        | none => .err "failed to read database number"
        | some (_, f2) =>
          match f2.readByte with
          | none => .err "failed to read after database number"
          | some (op2, f3) =>
            let resized : Except RdbOut (Nat × RFile) :=
              if op2 = ResizeDB then
                match readLength f3 with
                | none => .error (.err "failed to read length")
                | some (_, f4) =>
                  match readLength f4 with
                  | none => .error (.err "failed to read length")
                  | some (_, f5) =>
                    match f5.readByte with
                    | none => .error (.err "EOF")
                    | some (op3, f6) => .ok (op3, f6)
              else .ok (op2, f3)
            match resized with
            | .error e => e
            | .ok (op3, fr) =>
              match readRecords fuel op3 fr pairs with
              | .halt r => r
              | .cont fc pairsc => readOuter fuel fc pairsc
      else if op = EOFbyte then .ok pairs
      else .err s!"unsupported opcode: {op}"

/-- The 9-byte signature `REDIS0011` as bytes. -/
def rdbHeaderBytes : List Nat := [82, 69, 68, 73, 83, 48, 48, 49, 49]

/-- `Reader.Read`: a missing file is no records and no error; otherwise the
9-byte header is validated and the opcode loop runs (fuel one more than the
file length, enough for every forward-reading run). -/
def Reader.Read (file : Option (List Nat)) : RdbOut :=
  match file with
  | none => .ok []
  | some bytes =>
    match RFile.readBytes ⟨bytes, 0⟩ 9 with
    | none => .err "failed to read header"
    | some (hdr, f) =>
      if hdr = rdbHeaderBytes then readOuter (bytes.length + 1) f []
      else .err "invalid RDB header"

/-- Go `string(bytes)` for the loaded key and value. -/
def strOfBytes (bs : List Nat) : String := String.mk (bs.map (fun b => Char.ofNat (b % 256)))

/-- One iteration of the load loop in `main`:
`px := time.Until(pair.ExpiresAt).Milliseconds()` — the instant difference
saturated to the `time.Duration` range, then truncated toward zero to whole
milliseconds; a record with expiry whose `px ≤ 0` is skipped, every other
record is written via `Store.Set`. -/
def loadStep (now : GoTime) (s : Store) (p : KeyValue) : Store :=
  if p.HasExpiry then
    let px := Int.tdiv (satSub p.ExpiresAt now) 1000000
    if px ≤ 0 then s
    else Store.set s (strOfBytes p.Key) (strOfBytes p.Value) px now
  else Store.set s (strOfBytes p.Key) (strOfBytes p.Value) 0 now

/-- The load loop of `main` over all recovered records. -/
def loadPairs (s : Store) (pairs : List KeyValue) (now : GoTime) : Store :=
  pairs.foldl (loadStep now) s

/-- Startup load in `main`: on a successful `Reader.Read` the records are
filtered and written; on any error the server logs and keeps the store it
has. -/
def mainLoad (s : Store) (file : Option (List Nat)) (now : GoTime) : Store :=
  match Reader.Read file with
  | .ok pairs => loadPairs s pairs now
  | _ => s

/-- A well-formed snapshot: header, one database selector (index 0), one
string record `foo` → `bar` without expiry, and an end-marker as the last
byte of the file. -/
def rdbSingleRecordFile : List Nat :=
  rdbHeaderBytes ++ [0xFE, 0, 0, 0, 0, 0x00, 3, 0, 0, 0, 102, 111, 111, 3, 0, 0, 0, 98, 97, 114, 0xFF]

/-- A snapshot in which a second database selector follows the records of
the first database: header, selector (index 0), record `a` → `b`, a second
selector (index 1), record `c` → `d`, end-marker. -/
def rdbTwoSectionFile : List Nat :=
  rdbHeaderBytes ++ [0xFE, 0, 0, 0, 0, 0x00, 1, 0, 0, 0, 97, 1, 0, 0, 0, 98,
    0xFE, 1, 0, 0, 0, 0x00, 1, 0, 0, 0, 99, 1, 0, 0, 0, 100, 0xFF]

/-! Helper lemmas. -/

/-- Filtering out the bindings of one key leaves lookups of any other key
unchanged. -/
theorem lookup_filter_ne (l : List (String × StoreItem)) (k k' : String) (h : k' ≠ k) :
    (l.filter (fun p => p.1 != k)).lookup k' = l.lookup k' := by
  induction l with
  | nil => rfl
  | cons p t ih =>
    rcases p with ⟨a, b⟩
    by_cases hp : a = k
    · subst hp
      have h1 : (a != a) = false := by simp
      have h2 : (k' == a) = false := by simp [h]
      simp [List.filter_cons, h1, h2, List.lookup, ih]
    · have h1 : (a != k) = true := by simp [hp]
      by_cases hk : k' = a
      · subst hk
        simp [List.filter_cons, h1, List.lookup]
      · have h2 : (k' == a) = false := by simp [hk]
        simp [List.filter_cons, h1, List.lookup, h2, ih]

/-- `Store.set` binds the written key to the freshly built item and leaves
every other key's binding unchanged; reading the written key at any time `t`
succeeds unless a positive `px` was given and `t` is strictly past `now + px`. -/
theorem store_set_spec (s : Store) (k v k' : String) (px : Int) (now t : GoTime) :
    ((Store.set s k v px now).lookup k' =
      if k' = k then
        some ⟨v, decide (px > 0), if px > 0 then now + wrap64 (px * 1000000) else 0⟩
      else s.lookup k')
    ∧ (Store.get (Store.set s k v px now) k t =
        if 0 < px ∧ now + wrap64 (px * 1000000) < t then none else some v) := by
  have hl : ∀ k'', (Store.set s k v px now).lookup k'' =
      if k'' = k then
        some ⟨v, decide (px > 0), if px > 0 then now + wrap64 (px * 1000000) else 0⟩
      else s.lookup k'' := by
    intro k''
    by_cases hk : k'' = k
    · subst hk
      simp [Store.set, List.lookup]
    · have h2 : (k'' == k) = false := by simp [hk]
      simp [Store.set, List.lookup, h2, hk, lookup_filter_ne s k k'' hk]
  refine ⟨hl k', ?_⟩
  have hk := hl k
  simp only [if_pos rfl] at hk
  simp only [Store.get, hk, expired]
  by_cases h1 : 0 < px
  · by_cases h2 : now + wrap64 (px * 1000000) < t
    · simp [h1, h2]
    · simp [h1, h2]
  · simp [h1]

/-! Claim theorems. -/

/-- C6 (amended): `Store.Set` is total and unconditional — for every key,
value and ttl it overwrites the entry for the key (leaving other keys
untouched) with no error condition; a non-positive `px` gives no expiry, so
the entry is readable at every time `t`; a positive `px` gives the expiry
`now` plus the int64 product `px * time.Millisecond`, which equals
`now + px` milliseconds for every `px ≤ 9223372036854` (the entry is then
readable through that instant and absent strictly after it), while a larger
`px` wraps the product — possibly to a past expiry. -/
theorem store_write_total (s : Store) (k v k' : String) (px : Int) (now t : GoTime) :
    ((Store.set s k v px now).lookup k =
      some ⟨v, decide (px > 0), if px > 0 then now + wrap64 (px * 1000000) else 0⟩)
    ∧ (k' ≠ k → (Store.set s k v px now).lookup k' = s.lookup k')
    ∧ (px ≤ 0 → Store.get (Store.set s k v px now) k t = some v)
    ∧ (0 < px → px ≤ 9223372036854 →
        Store.get (Store.set s k v px now) k t =
          (if now + px * 1000000 < t then none else some v))
    ∧ (0 < px → Store.get (Store.set s k v px now) k t =
        (if now + wrap64 (px * 1000000) < t then none else some v)) := by
  refine ⟨?_, ?_, ?_, ?_, ?_⟩
  · have := (store_set_spec s k v k px now t).1
    simpa using this
  · intro hk
    have := (store_set_spec s k v k' px now t).1
    simpa [hk] using this
  · intro hpx
    have := (store_set_spec s k v k px now t).2
    have h1 : ¬ (0 < px) := by omega
    simpa [h1] using this
  · intro hpx hbound
    have h2 := (store_set_spec s k v k px now t).2
    have hw : wrap64 (px * 1000000) = px * 1000000 := by
      unfold wrap64
      omega
    rw [hw] at h2
    simpa [hpx] using h2
  · intro hpx
    have h2 := (store_set_spec s k v k px now t).2
    simpa [hpx] using h2

/-- Witness for `store_write_total` at concrete inputs: writing key `a` with
`px = 5` (5 ms) at instant `10` ns leaves other keys alone and the entry
dies strictly after instant `10 + 5·10^6` ns. -/
theorem store_write_total_witness :
    (Store.set [] "a" "x" 5 10).lookup "b" = ([] : Store).lookup "b"
    ∧ Store.get (Store.set [] "a" "x" 5 10) "a" 16
        = (if (10 : Int) + 5 * 1000000 < 16 then none else some "x") :=
  ⟨(store_write_total [] "a" "x" "b" 5 10 16).2.1 (by decide),
   (store_write_total [] "a" "x" "b" 5 10 16).2.2.2.1 (by decide) (by decide)⟩

/-- C6 counterexample: the claim says a positive ttl always yields expiry
`now + ttl`; but `SET k v PX 9300000000000` overflows the int64 product
`px * time.Millisecond` — the wrapped duration is negative, the stored
expiry lies in the past, and an immediate GET finds the key expired. -/
theorem px_overflow_counterexample :
    (Store.set [] "k" "v" 9300000000000 0).lookup "k"
      = some ⟨"v", true, -9146744073709551616⟩
    ∧ Store.get (Store.set [] "k" "v" 9300000000000 0) "k" 0 = none := by
  constructor
  · decide
  · decide

/-- C4: SET without PX followed by GET of the same key (no intervening
writes) replies `+OK` and then the written value as a bulk string, at any
later observation time. -/
theorem set_get_roundtrip (s : Store) (cfg : Config) (k v : String) (now t : GoTime) :
    handleElements s cfg ["SET", k, v] now = (Store.set s k v 0 now, [Reply.simple "OK"])
    ∧ handleElements (Store.set s k v 0 now) cfg ["GET", k] t
        = (Store.set s k v 0 now, [Reply.bulk v]) := by
  constructor
  · rfl
  · have hg : Store.get (Store.set s k v 0 now) k t = some v := by
      have := (store_set_spec s k v k 0 now t).2
      simpa using this
    have hup : goUpper "GET" = "GET" := rfl
    simp [handleElements, hup, hg]

/-- C5: a GET of arity 2 replies with the stored value as a bulk string when
the key is present and unexpired, and with the null bulk string otherwise;
`Store.Get` reports absence exactly for a missing or expired entry; the null
bulk reply encodes as the literal `$-1\r\n`. -/
theorem get_command_spec (s : Store) (cfg : Config) (k : String) (now : GoTime) :
    (handleElements s cfg ["GET", k] now
      = (s, [match Store.get s k now with
             | some v => Reply.bulk v
             | none => Reply.nullBulk]))
    ∧ (Store.get s k now = none ↔
        s.lookup k = none ∨ ∃ it, s.lookup k = some it ∧ expired it now = true)
    ∧ encodeReply Reply.nullBulk = "$-1\r\n" := by
  refine ⟨?_, ?_, rfl⟩
  · have hup : goUpper "GET" = "GET" := rfl
    cases hg : Store.get s k now <;> simp [handleElements, hup, hg]
  · unfold Store.get
    cases hl : s.lookup k with
    | none => simp
    | some it =>
      by_cases he : expired it now = true
      · simp [he]
      · simp [he]

/-- C9: a missing snapshot file loads as no records and no error, and the
startup load leaves the store exactly as it was. -/
theorem rdb_missing_file (s : Store) (now : GoTime) :
    Reader.Read none = RdbOut.ok [] ∧ mainLoad s none now = s :=
  ⟨rfl, rfl⟩

/-- `wrap64` is the identity on values already in the int64 range. -/
theorem wrap64_eq_self (z : Int) (h1 : 0 ≤ z) (h2 : z ≤ 2 ^ 63 - 1) : wrap64 z = z := by
  unfold wrap64
  omega

/-- `Duration.Milliseconds` of a value below one millisecond is not
positive (truncation toward zero). -/
theorem tdiv_ms_nonpos (a : Int) (h : a < 1000000) : Int.tdiv a 1000000 ≤ 0 := by
  rcases le_or_lt 0 a with h0 | h0
  · rw [Int.tdiv_eq_ediv h0 (by norm_num)]
    omega
  · have h2 : (0 : Int) ≤ -a := by omega
    have h3 : 0 ≤ Int.tdiv (-a) 1000000 := Int.tdiv_nonneg h2 (by norm_num)
    have h4 := Int.neg_tdiv a 1000000
    omega

/-- `Duration.Milliseconds` of at least one millisecond: positive, never
overshooting the duration, and exact on whole milliseconds. -/
theorem tdiv_ms_facts (a : Int) (h : 1000000 ≤ a) :
    1 ≤ Int.tdiv a 1000000 ∧ Int.tdiv a 1000000 * 1000000 ≤ a
      ∧ ((1000000 : Int) ∣ a → Int.tdiv a 1000000 * 1000000 = a) := by
  have h0 : (0 : Int) ≤ a := by omega
  rw [Int.tdiv_eq_ediv h0 (by norm_num)]
  refine ⟨by omega, by omega, fun hd => by omega⟩

/-- C7 (amended): the startup load loop skips a recovered record whose
expiry is less than one millisecond past the load instant (in particular
every already-passed expiry) — the key is then absent after loading it into
an empty store. Every record whose expiry is at least one millisecond in
the future is written via `Store.Set` with the relative ttl
`px = time.Until(ExpiresAt).Milliseconds()`, the saturated and
millisecond-truncated difference: the stored entry's absolute expiry
`now + px`·1ms never exceeds the record's `ExpiresAt`, and equals it
exactly when the difference is a whole number of milliseconds within
`maxDuration` (≈292 years). Records without expiry are written with no
ttl. -/
theorem snapshot_load_filter (s : Store) (p : KeyValue) (now : GoTime) :
    (p.HasExpiry = true → p.ExpiresAt < now + 1000000 →
        loadStep now s p = s
        ∧ (loadPairs [] [p] now).lookup (strOfBytes p.Key) = none)
    ∧ (p.HasExpiry = true → now + 1000000 ≤ p.ExpiresAt →
        (∃ px, px = Int.tdiv (satSub p.ExpiresAt now) 1000000
          ∧ 0 < px
          ∧ loadStep now s p
              = Store.set s (strOfBytes p.Key) (strOfBytes p.Value) px now
          ∧ (loadStep now s p).lookup (strOfBytes p.Key)
              = some ⟨strOfBytes p.Value, true, now + px * 1000000⟩
          ∧ now + px * 1000000 ≤ p.ExpiresAt
          ∧ (p.ExpiresAt - now ≤ maxDuration → (1000000 : Int) ∣ (p.ExpiresAt - now) →
              now + px * 1000000 = p.ExpiresAt)))
    ∧ (p.HasExpiry = false →
        loadStep now s p = Store.set s (strOfBytes p.Key) (strOfBytes p.Value) 0 now) := by
  refine ⟨?_, ?_, ?_⟩
  · intro hE hlt
    have hdiff : p.ExpiresAt - now < 1000000 := by linarith
    have hsd : satSub p.ExpiresAt now < 1000000 := by
      unfold satSub
      exact max_lt (lt_of_le_of_lt (min_le_left _ _) hdiff) (by norm_num [minDuration])
    have hpx : Int.tdiv (satSub p.ExpiresAt now) 1000000 ≤ 0 := tdiv_ms_nonpos _ hsd
    constructor
    · simp [loadStep, hE, hpx]
    · simp [loadPairs, loadStep, hE, hpx, List.lookup]
  · intro hE hge
    have hdiff : (1000000 : Int) ≤ p.ExpiresAt - now := by linarith
    have hsd1 : (1000000 : Int) ≤ satSub p.ExpiresAt now := by
      unfold satSub
      exact le_trans (le_min hdiff (by norm_num [maxDuration])) (le_max_left _ _)
    have hsd2 : satSub p.ExpiresAt now ≤ p.ExpiresAt - now := by
      unfold satSub
      exact max_le (min_le_left _ _) (le_trans (by norm_num [minDuration]) hdiff)
    have hsd3 : satSub p.ExpiresAt now ≤ 2 ^ 63 - 1 := by
      unfold satSub
      exact max_le (le_trans (min_le_right _ _) (by norm_num [maxDuration]))
        (by norm_num [minDuration])
    obtain ⟨hpx1, hpx2, hpx3⟩ := tdiv_ms_facts _ hsd1
    have hpos : (0 : Int) < Int.tdiv (satSub p.ExpiresAt now) 1000000 := by linarith
    have hnp : ¬ (Int.tdiv (satSub p.ExpiresAt now) 1000000 ≤ 0) := by
      intro hcon
      linarith
    have hstep : loadStep now s p = Store.set s (strOfBytes p.Key) (strOfBytes p.Value)
        (Int.tdiv (satSub p.ExpiresAt now) 1000000) now := by
      simp [loadStep, hE, hnp]
    have hb2 : (0 : Int) ≤ Int.tdiv (satSub p.ExpiresAt now) 1000000 * 1000000 :=
      mul_nonneg (by linarith) (by norm_num)
    have hb1 : Int.tdiv (satSub p.ExpiresAt now) 1000000 * 1000000 ≤ 2 ^ 63 - 1 :=
      le_trans hpx2 hsd3
    have hw := wrap64_eq_self _ hb2 hb1
    have hl := (store_set_spec s (strOfBytes p.Key) (strOfBytes p.Value) (strOfBytes p.Key)
      (Int.tdiv (satSub p.ExpiresAt now) 1000000) now 0).1
    rw [if_pos rfl] at hl
    have hdec : decide (Int.tdiv (satSub p.ExpiresAt now) 1000000 > 0) = true := by
      simpa using hpos
    refine ⟨Int.tdiv (satSub p.ExpiresAt now) 1000000, rfl, hpos, hstep, ?_, by linarith, ?_⟩
    · rw [hstep, hl, hdec, if_pos hpos, hw]
    · intro hb hdvd
      have hsEq : satSub p.ExpiresAt now = p.ExpiresAt - now := by
        unfold satSub
        rw [min_eq_left (by simpa [maxDuration] using hb)]
        exact max_eq_left (le_trans (by norm_num [minDuration]) hdiff)
      rw [hsEq] at hpx3
      have h5 := hpx3 hdvd
      rw [hsEq]
      linarith
  · intro hE
    simp [loadStep, hE]

/-- Witness for `snapshot_load_filter`: a record whose expiry passed half a
millisecond before the load instant is dropped (the key is absent), and one
expiring 4 s in the future — a whole number of milliseconds, within the
duration range — is stored with exactly its absolute expiry. -/
theorem snapshot_load_filter_witness :
    (loadPairs [] [⟨[97], [98], true, 1000000⟩] 1500000).lookup (strOfBytes [97]) = none
    ∧ (loadStep 1000000000 [] ⟨[97], [98], true, 5000000000⟩).lookup (strOfBytes [97])
        = some ⟨strOfBytes [98], true, 5000000000⟩ := by
  constructor
  · exact ((snapshot_load_filter [] ⟨[97], [98], true, 1000000⟩ 1500000).1 rfl (by decide)).2
  · obtain ⟨px, hdef, hpos, hstep, hlook, hle, hexact⟩ :=
      (snapshot_load_filter [] ⟨[97], [98], true, 5000000000⟩ 1000000000).2.1 rfl (by decide)
    have h2 := hexact (by decide) (by decide)
    rw [h2] at hlook
    exact hlook

/-- C7 counterexample: a record whose expiry is strictly in the future is
nonetheless dropped when it is less than one millisecond away
(`time.Until(...).Milliseconds()` truncates to 0 and the px ≤ 0 filter
fires), and a far-future millisecond expiry is not preserved —
`time.Until` saturates at `maxDuration`, so the stored entry's expiry is
capped instead of equalling the record's absolute expiry. -/
theorem load_truncation_counterexample :
    (loadPairs [] [⟨[97], [98], true, 1000000⟩] 500000).lookup (strOfBytes [97]) = none
    ∧ (loadStep 0 [] ⟨[97], [98], true, 10000000000000000000⟩).lookup (strOfBytes [97])
        = some ⟨strOfBytes [98], true, 9223372036854000000⟩
    ∧ (loadStep 0 [] ⟨[97], [98], true, 10000000000000000000⟩).lookup (strOfBytes [97])
        ≠ some ⟨strOfBytes [98], true, 10000000000000000000⟩ := by
  refine ⟨?_, ?_, ?_⟩
  · decide
  · decide
  · decide

/-- C1 (amended): the expiry comparison is `time.Now().After(expiresAt)`,
i.e. strictly-after — an entry is expired iff `now` is strictly past its
expiry, so a key exactly at its expiry boundary (`now = expiresAt`) is NOT
yet expired: `Store.Get` still returns it and `getAllKeys` still lists it.
Both readers apply this test to the single sampled `now`. -/
theorem expiry_strictly_after (s : Store) (k : String) (it : StoreItem) (now : GoTime)
    (v : String) (hl : s.lookup k = some it) :
    (Store.get s k now = if expired it now then none else some it.value)
    ∧ (expired it now = true ↔ it.hasExpiry = true ∧ it.expiresAt < now)
    ∧ (expired ⟨v, true, now⟩ now = false)
    ∧ (∀ k', k' ∈ getAllKeys s now ↔ ∃ it', (k', it') ∈ s ∧ expired it' now = false) := by
  refine ⟨?_, ?_, ?_, ?_⟩
  · simp [Store.get, hl]
  · simp [expired]
  · simp [expired]
  · intro k'
    constructor
    · intro hm
      obtain ⟨⟨a, b⟩, hp, rfl⟩ := List.mem_map.mp hm
      rcases List.mem_filter.mp hp with ⟨hmem, hpred⟩
      exact ⟨b, hmem, by simpa using hpred⟩
    · rintro ⟨it', hmem, hexp⟩
      apply List.mem_map.mpr
      refine ⟨(k', it'), ?_, rfl⟩
      apply List.mem_filter.mpr
      exact ⟨hmem, by simpa using hexp⟩

/-- Witness for `expiry_strictly_after`: a key whose expiry is exactly the
sampled `now` is still returned by `Store.Get` and still listed by
`getAllKeys`. -/
theorem expiry_strictly_after_witness :
    (Store.get [("k", ⟨"v", true, 100⟩)] "k" 100
      = if expired ⟨"v", true, 100⟩ 100 then none else some "v")
    ∧ expired ⟨"w", true, 100⟩ 100 = false :=
  ⟨(expiry_strictly_after [("k", ⟨"v", true, 100⟩)] "k" ⟨"v", true, 100⟩ 100 "w" (by simp [List.lookup])).1,
   (expiry_strictly_after [("k", ⟨"v", true, 100⟩)] "k" ⟨"v", true, 100⟩ 100 "w" (by simp [List.lookup])).2.2.1⟩

/-- C1 counterexample: the claim says a key exactly at its expiry boundary
is treated as expired; but at `now = expiresAt = 100` the code returns the
value from `Store.Get` and lists the key in `getAllKeys`. -/
theorem expiry_boundary_counterexample :
    Store.get [("k", ⟨"v", true, 100⟩)] "k" 100 = some "v"
    ∧ getAllKeys [("k", ⟨"v", true, 100⟩)] 100 = ["k"] := by
  constructor
  · simp [Store.get, List.lookup, expired]
  · simp [getAllKeys, expired]

/-- C3 (amended): for every non-empty decoded argument list the dispatcher
writes exactly one reply frame, and a command other than SET leaves the
store unchanged (at most the documented side effect); but for the empty
argument list — a decoded frame whose declared element count is 0 — the
`len(elements) > 0` guard skips the dispatch and no reply frame is written. -/
theorem dispatcher_one_reply (s : Store) (cfg : Config) (elements : List String) (now : GoTime) :
    (elements ≠ [] → ((handleElements s cfg elements now).2).length = 1)
    ∧ (handleElements s cfg [] now).2 = []
    ∧ ((elements.head?.map goUpper) ≠ some "SET" →
        (handleElements s cfg elements now).1 = s) := by
  refine ⟨?_, rfl, ?_⟩
  · intro h
    match elements with
    | [] => exact absurd rfl h
    | cmd :: args =>
      simp only [handleElements]
      repeat' split <;> try rfl
  · intro h
    match elements with
    | [] => rfl
    | cmd :: args =>
      have hc : goUpper cmd ≠ "SET" := by simpa using h
      simp only [handleElements]
      repeat' split <;> try rfl

/-- Witness for `dispatcher_one_reply`: a concrete `PING` writes exactly one
reply and leaves the store unchanged. -/
theorem dispatcher_one_reply_witness :
    ((handleElements [] ⟨"/tmp", "x"⟩ ["PING"] 0).2).length = 1
    ∧ (handleElements [] ⟨"/tmp", "x"⟩ ["PING"] 0).1 = [] :=
  ⟨(dispatcher_one_reply [] ⟨"/tmp", "x"⟩ ["PING"] 0).1 (by simp),
   (dispatcher_one_reply [] ⟨"/tmp", "x"⟩ ["PING"] 0).2.2 (by decide)⟩

/-- C3 counterexample: a decoded frame whose declared element count is 0
(the wire bytes `*0\r\n`) is dispatched with zero reply frames written, not
exactly one — the `len(elements) > 0` guard skips the dispatch. -/
theorem empty_frame_no_reply :
    serverStep [] ⟨"", ""⟩ 0 ("*0\r\n".data) = StepResult.reply [] [] []
    ∧ (handleElements [] ⟨"", ""⟩ [] 0).2.length = 0 := by
  constructor
  · rfl
  · rfl

/-- A line delivered by `readLine` together with the leftover stream
reassembles the input (the decoder consumes a prefix). -/
theorem readLine_append : ∀ (input l r : List Char),
    readLine input = some (l, r) → input = l ++ r := by
  intro input
  induction input with
  | nil => intro l r h; simp [readLine] at h
  | cons c cs ih =>
    intro l r h
    simp only [readLine] at h
    by_cases hc : c = '\n'
    · rw [if_pos hc] at h
      obtain ⟨rfl, rfl⟩ := by simpa using h
      rfl
    · rw [if_neg hc] at h
      cases hrl : readLine cs with
      | none => rw [hrl] at h; simp at h
      | some p =>
        rcases p with ⟨l2, r2⟩
        rw [hrl] at h
        obtain ⟨rfl, rfl⟩ : c :: l2 = l ∧ r2 = r := by simpa using h
        simpa using ih l2 r2 hrl

/-- Characters surviving `trimCRLF` come from the original line. -/
theorem mem_trimCRLF (l : List Char) (c : Char) (h : c ∈ trimCRLF l) : c ∈ l := by
  unfold trimCRLF at h
  split at h
  · rename_i rest hrev
    have hl : l = rest.reverse ++ ['\r', '\n'] := by
      have h2 := congrArg List.reverse hrev
      simpa using h2
    rw [hl]
    exact List.mem_append_left _ h
  · exact h

/-- `goAtoi` yields a negative number only from a string that starts with
the minus sign. -/
theorem goAtoi_neg_head (l : List Char) (v : Int) (h : goAtoi l = some v) (hv : v < 0) :
    l.head? = some '-' := by
  by_contra hne
  unfold goAtoi at h
  rw [if_neg hne] at h
  have hnn : 0 ≤ v := by
    by_cases hp : l.head? = some '+'
    · rw [if_pos hp] at h
      cases hpd : parseDigits (l.drop 1) with
      | none => rw [hpd] at h; simp at h
      | some n =>
        rw [hpd] at h
        simp only [Option.map_some] at h
        have hv2 : (n : Int) = v := by
          by_cases hr : (n : Int) < int64Min ∨ int64Max < (n : Int)
          · simp [hr] at h
          · simpa [hr] using h
        exact hv2 ▸ Int.natCast_nonneg n
    · rw [if_neg hp] at h
      cases hpd : parseDigits l with
      | none => rw [hpd] at h; simp at h
      | some n =>
        rw [hpd] at h
        simp only [Option.map_some] at h
        have hv2 : (n : Int) = v := by
          by_cases hr : (n : Int) < int64Min ∨ int64Max < (n : Int)
          · simp [hr] at h
          · simpa [hr] using h
        exact hv2 ▸ Int.natCast_nonneg n
  omega

/-- The element loop can panic only on input that contains a minus sign
(a negative declared length is needed to reach the negative `make` size or
the negative slice bound). -/
theorem decodeElements_panick_mem : ∀ (n : Nat) (input : List Char) (acc : List String),
    decodeElements n input acc = DecodeResult.panicked → '-' ∈ input := by
  intro n
  induction n with
  | zero => intro input acc h; simp [decodeElements] at h
  | succ m ih =>
    intro input acc h
    simp only [decodeElements] at h
    split at h
    · simp at h
    · rename_i p line rest hrl
      have hin : input = line ++ rest := readLine_append input line rest hrl
      split at h
      · simp at h
      · rename_i hd
        split at h
        · simp at h
        · rename_i len ha
          have hminus_line : len < 0 → '-' ∈ input := by
            intro hneg
            have hh := goAtoi_neg_head _ _ ha hneg
            have h1 : '-' ∈ trimCRLF (line.drop 1) := by
              cases htl : trimCRLF (line.drop 1) with
              | nil => rw [htl] at hh; simp at hh
              | cons x xs =>
                rw [htl] at hh
                obtain rfl : '-' = x := by simpa using hh.symm
                exact List.mem_cons_self _ _
            have h2 : '-' ∈ line.drop 1 := mem_trimCRLF _ _ h1
            have h3 : '-' ∈ line := List.drop_subset 1 line h2
            rw [hin]
            exact List.mem_append_left _ h3
          split at h
          · rename_i hneg
            exact hminus_line (by omega)
          · split at h
            · simp at h
            · split at h
              · rename_i h3
                exact hminus_line h3
              · have h4 := ih _ _ h
                have h5 : '-' ∈ rest := List.drop_subset _ rest h4
                rw [hin]
                exact List.mem_append_right _ h5

/-- The whole frame decoder can panic only on input containing a minus
sign. -/
theorem decodeFrame_panick_mem (input : List Char)
    (h : decodeFrame input = DecodeResult.panicked) : '-' ∈ input := by
  unfold decodeFrame at h
  split at h
  · simp at h
  · rename_i p line rest hrl
    have hin : input = line ++ rest := readLine_append input line rest hrl
    split at h
    · simp at h
    · rename_i hd
      split at h
      · simp at h
      · rename_i n ha
        split at h
        · rename_i hneg
          have hh := goAtoi_neg_head _ _ ha hneg
          have h1 : '-' ∈ trimCRLF (line.drop 1) := by
            cases htl : trimCRLF (line.drop 1) with
            | nil => rw [htl] at hh; simp at hh
            | cons x xs =>
              rw [htl] at hh
              obtain rfl : '-' = x := by simpa using hh.symm
              exact List.mem_cons_self _ _
          have h2 : '-' ∈ line := List.drop_subset 1 line (mem_trimCRLF _ _ h1)
          rw [hin]
          exact List.mem_append_left _ h2
        · have h4 := decodeElements_panick_mem _ _ _ h
          rw [hin]
          exact List.mem_append_right _ h4

/-- C10 (amended): the decoding step is panic-free on every input byte
stream that contains no minus sign — in particular whenever every declared
array count and bulk length is non-negative — completing with either a
decoded argument list or a closed connection. (A header whose declared
count or length parses as negative, e.g. `*-1` or `$-3`, panics in
`make`/slicing; see the counterexample.) -/
theorem decoder_total_without_minus (input : List Char) (h : '-' ∉ input) :
    (∃ es rest, decodeFrame input = DecodeResult.ok es rest)
    ∨ decodeFrame input = DecodeResult.closed := by
  cases hdf : decodeFrame input with
  | ok es rest => exact Or.inl ⟨es, rest, rfl⟩
  | closed => exact Or.inr rfl
  | panicked => exact absurd (decodeFrame_panick_mem input hdf) h

/-- Witness for `decoder_total_without_minus` on a well-formed `PING`
frame. -/
theorem decoder_total_without_minus_witness :
    (∃ es rest, decodeFrame ("*1\r\n$4\r\nPING\r\n".data) = DecodeResult.ok es rest)
    ∨ decodeFrame ("*1\r\n$4\r\nPING\r\n".data) = DecodeResult.closed :=
  decoder_total_without_minus ("*1\r\n$4\r\nPING\r\n".data) (by decide)

/-- C10 counterexample: a frame element declaring bulk length `-3` (the
claim's own example) drives `make([]byte, length+2)` to a negative size —
a Go runtime panic, not a clean argument list or connection close. -/
theorem negative_bulk_length_panics :
    decodeFrame ("*1\r\n$-3\r\nab\r\n".data) = DecodeResult.panicked := by
  decide

/-- C8: a short read while consuming a declared element body — fewer than
the declared `L` bytes plus trailing CRLF remaining — makes the element
loop return the fail-fast `closed` outcome at once, and a closed decode
makes the connection step close without writing any reply. -/
theorem short_read_closes :
    (∀ (n : Nat) (input line rest : List Char) (acc : List String) (len : Int),
      readLine input = some (line, rest) →
      line.head? = some '$' →
      goAtoi (trimCRLF (line.drop 1)) = some len →
      0 ≤ len →
      rest.length < (len + 2).toNat →
      decodeElements (n + 1) input acc = DecodeResult.closed)
    ∧ (∀ (s : Store) (cfg : Config) (now : GoTime) (input : List Char),
      decodeFrame input = DecodeResult.closed →
      serverStep s cfg now input = StepResult.close) := by
  constructor
  · intro n input line rest acc len h1 h2 h3 h4 h5
    have hnn : ¬ (len + 2 < 0) := by omega
    simp only [decodeElements, h1, h2, h3]
    simp [hnn, h5]
  · intro s cfg now input h
    simp [serverStep, h]

/-- Witness for `short_read_closes`: the stream `*1\r\n$5\r\nab` declares a
5-byte bulk but supplies only two bytes; the element loop closes and the
connection step writes no reply. -/
theorem short_read_closes_witness :
    decodeElements 1 ("$5\r\nab".data) [] = DecodeResult.closed
    ∧ serverStep [] ⟨"", ""⟩ 0 ("*1\r\n$5\r\nab".data) = StepResult.close :=
  ⟨short_read_closes.1 0 ("$5\r\nab".data) ("$5\r\n".data) ("ab".data) [] 5
      (by decide) (by decide) (by decide) (by decide) (by decide),
   short_read_closes.2 [] ⟨"", ""⟩ 0 ("*1\r\n$5\r\nab".data) (by decide)⟩

/-- C2 (amended): the record loop does read records until the byte in hand
is a database-selector or end-marker opcode, but that byte is consumed and
dropped — control returns to the outer loop with the cursor unchanged and
no pushback, and the outer loop reads the following byte as its next
opcode. Consequently an end-marker that follows a record sequence ends the
load successfully (with the records parsed) only because the outer loop
then reaches the physical end of file — as in the well-formed file whose
end-marker is its last byte. -/
theorem record_loop_handoff (fuel : Nat) (op : Nat) (f : RFile) (pairs : List KeyValue) :
    ((op = DatabaseStart ∨ op = EOFbyte) → readRecords (fuel + 1) op f pairs = Loop.cont f pairs)
    ∧ (f.bytes.length ≤ f.pos → readOuter (fuel + 1) f pairs = RdbOut.ok pairs)
    ∧ Reader.Read (some rdbSingleRecordFile)
        = RdbOut.ok [⟨[102, 111, 111], [98, 97, 114], false, 0⟩] := by
  refine ⟨?_, ?_, ?_⟩
  · intro h
    simp [readRecords, h]
  · intro h
    have hb : (f.bytes.drop f.pos) = [] := List.drop_eq_nil_of_le h
    simp [readOuter, RFile.readByte, hb]
  · decide

/-- Witness for `record_loop_handoff`: the record loop hands an end-marker
byte straight back to the outer loop without touching the cursor, and the
outer loop at physical end of file returns the records gathered so far. -/
theorem record_loop_handoff_witness :
    readRecords 1 0xFF ⟨[0xFF], 1⟩ [] = Loop.cont ⟨[0xFF], 1⟩ []
    ∧ readOuter 1 ⟨[0xFF], 1⟩ [⟨[97], [98], false, 0⟩] = RdbOut.ok [⟨[97], [98], false, 0⟩] :=
  ⟨(record_loop_handoff 0 0xFF ⟨[0xFF], 1⟩ []).1 (Or.inr rfl),
   (record_loop_handoff 0 0xFF ⟨[0xFF], 1⟩ [⟨[97], [98], false, 0⟩]).2.1 (by decide)⟩

/-- C2 counterexample: in `rdbTwoSectionFile` a database-selector opcode
follows the first database's records; the claim says it is handled by the
outer loop and starts a new database section, but the code discards it —
the outer loop reads the next byte (`1`, from the database index) as an
opcode and the whole load fails with "unsupported opcode: 1" instead of
returning the two records. -/
theorem selector_after_records_not_rehandled :
    Reader.Read (some rdbTwoSectionFile) = RdbOut.err "unsupported opcode: 1"
    ∧ Reader.Read (some rdbTwoSectionFile)
        ≠ RdbOut.ok [⟨[97], [98], false, 0⟩, ⟨[99], [100], false, 0⟩] := by
  constructor
  · decide
  · decide

end GoRedis
